import Mathlib

/-!
Verification of the target-acquisition-and-locking core of the repository.

The definitions below are a shallow embedding of `MySQLTargetManager.Acquire`
(the CSV/SQL target manager plugin) and of the Go standard-library address
parsing it calls (`net.ParseIP`, `IP.To4`, `IP.To16`).  Machine integers are
modelled as `Nat` with an explicit `% 4294967296` where the source converts a
length to `uint32`.  The external database rows, the random source and the
locker are inputs of the embedded function; locker interactions are recorded
in an explicit call trace so that claims about "the locker was (not) invoked"
are statable.
-/

/-! ## Go `net` address parsing (`net.ParseIP`, `To4`, `To16`)

A Go `net.IP` is a byte slice of length 4 or 16; we model it as a list of
byte values.  `ParseIP` on a dotted-quad string returns the 16-byte
IPv4-in-IPv6 form, exactly as the Go implementation does. -/

abbrev GoIP := List Nat

/-- The 12-byte prefix Go uses for IPv4 addresses stored in 16-byte form. -/
def v4mapped : List Nat := [0, 0, 0, 0, 0, 0, 0, 0, 0, 0, 255, 255]

/-- Go `net.dtoi`: parse a decimal number off the front of a character list.
Fails when there is no digit or the accumulated value reaches `0xFFFFFF`. -/
def dtoi (s : List Char) : Option (Nat × List Char) :=
  let ds := s.takeWhile Char.isDigit
  if ds.isEmpty then none
  else
    let n := ds.foldl (fun a c => a * 10 + (c.toNat - 48)) 0
    if 0xFFFFFF ≤ n then none else some (n, s.dropWhile Char.isDigit)

/-- Hexadecimal value of a character, as accepted by Go `net.xtoi`. -/
def hexVal (c : Char) : Option Nat :=
  if '0' ≤ c ∧ c ≤ '9' then some (c.toNat - 48)
  else if 'a' ≤ c ∧ c ≤ 'f' then some (c.toNat - 97 + 10)
  else if 'A' ≤ c ∧ c ≤ 'F' then some (c.toNat - 65 + 10)
  else none

/-- Go `net.xtoi`: parse a hexadecimal number off the front of a character
list.  Fails when there is no hex digit or the value reaches `0xFFFFFF`. -/
def xtoi (s : List Char) : Option (Nat × List Char) :=
  let ds := s.takeWhile (fun c => (hexVal c).isSome)
  if ds.isEmpty then none
  else
    let n := ds.foldl (fun a c => a * 16 + (hexVal c).getD 0) 0
    if 0xFFFFFF ≤ n then none else some (n, s.dropWhile (fun c => (hexVal c).isSome))

/-- The field loop of Go `net.parseIPv4`: `n` dot-separated decimal fields,
each at most 255, consuming the whole input. -/
def parseV4Fields : Nat → List Char → Option (List Nat)
  | 0, s => if s.isEmpty then some [] else none
  | k + 1, s =>
    match dtoi s with
    | none => none
    | some (v, rest) =>
      if 255 < v then none
      else if k = 0 then
        if rest.isEmpty then some [v] else none
      else
        match rest with
        | '.' :: rest2 =>
          match parseV4Fields k rest2 with
          | none => none
          | some vs => some (v :: vs)
        | _ => none

/-- Go `net.parseIPv4`: a dotted quad, returned in Go's 16-byte form. -/
def parseIPv4 (s : List Char) : Option GoIP :=
  match parseV4Fields 4 s with
  | none => none
  | some bs => some (v4mapped ++ bs)

/-- Index of the last `'%'` in a character list, if any. -/
def zoneCut : List Char → Option Nat
  | [] => none
  | c :: rest =>
    match zoneCut rest with
    | some k => some (k + 1)
    | none => if c = '%' then some 0 else none

/-- Go `net.splitHostZone`: drop a trailing `%zone` part, but only when the
`'%'` is not the first character. -/
def stripZone (s : List Char) : List Char :=
  match zoneCut s with
  | none => s
  | some i => if 0 < i then s.take i else s

/-- The main loop of Go `net.parseIPv6`.  `fuel` counts the remaining 16-bit
groups (at most 8); `acc` is the bytes produced so far; `ell` the position of
the `::` ellipsis when one has been seen.  Returns the accumulated bytes and
ellipsis position, or `none` on a syntax error. -/
def p6loop : Nat → List Char → List Nat → Option Nat → Option (List Nat × Option Nat)
  | 0, s, acc, ell => if s.isEmpty then some (acc, ell) else none
  | fuel + 1, s, acc, ell =>
    match xtoi s with
    | none => none
    | some (n, rest) =>
      if 0xFFFF < n then none
      else if rest.head? = some '.' then
        if (ell = none ∧ acc.length ≠ 12) ∨ 16 < acc.length + 4 then none
        else
          match parseIPv4 s with
          | none => none
          | some ip4 => some (acc ++ ip4.drop 12, ell)
      else
        match rest with
        | [] => some (acc ++ [n / 256, n % 256], ell)
        | ':' :: [] => none
        | ':' :: ':' :: rest2 =>
          if ell.isSome then none
          else if rest2.isEmpty then some (acc ++ [n / 256, n % 256], some (acc.length + 2))
          else p6loop fuel rest2 (acc ++ [n / 256, n % 256]) (some (acc.length + 2))
        | ':' :: rest2 => p6loop fuel rest2 (acc ++ [n / 256, n % 256]) ell
        | _ => none

/-- The tail of Go `net.parseIPv6`: expand the ellipsis when fewer than 16
bytes were produced; reject an ellipsis that stands for zero groups. -/
def p6finish (acc : List Nat) (ell : Option Nat) : Option GoIP :=
  if acc.length < 16 then
    match ell with
    | none => none
    | some e => some (acc.take e ++ List.replicate (16 - acc.length) 0 ++ acc.drop e)
  else
    match ell with
    | none => some acc
    | some _ => none

/-- Go `net.parseIPv6` (zone stripped as in `parseIPv6Zone`). -/
def parseIPv6 (s0 : List Char) : Option GoIP :=
  let s := stripZone s0
  if s.take 2 = [':', ':'] then
    if (s.drop 2).isEmpty then some (List.replicate 16 0)
    else
      match p6loop 8 (s.drop 2) [] (some 0) with
      | none => none
      | some (acc, ell) => p6finish acc ell
  else
    match p6loop 8 s [] none with
    | none => none
    | some (acc, ell) => p6finish acc ell

/-- The dispatch scan of Go `net.ParseIP`: the first `'.'` or `':'` decides
the family. -/
def firstSep : List Char → Option Char
  | [] => none
  | c :: rest => if c = '.' ∨ c = ':' then some c else firstSep rest

/-- Go `net.ParseIP`. -/
def parseIP (s : String) : Option GoIP :=
  match firstSep s.toList with
  | some '.' => parseIPv4 s.toList
  | some ':' => parseIPv6 s.toList
  | _ => none

/-- Go `net.IP.To4`: the 4-byte form, when the address is IPv4. -/
def to4 (ip : GoIP) : Option GoIP :=
  if ip.length = 4 then some ip
  else if ip.length = 16 ∧ ip.take 12 = v4mapped then some (ip.drop 12)
  else none

/-- Go `net.IP.To16`: the 16-byte form; succeeds for both families. -/
def to16 (ip : GoIP) : Option GoIP :=
  if ip.length = 4 then some (v4mapped ++ ip)
  else if ip.length = 16 then some ip
  else none

/-! ## Data model of the plugin -/

/-- `AcquireParameters` of the plugin.  The two count fields are `uint32` in
the source; values are below `2 ^ 32`. -/
structure AcquireParameters where
  MinNumberDevices : Nat
  MaxNumberDevices : Nat
  HostPrefixes : List String
  Shuffle : Bool
deriving DecidableEq

/-- One row scanned from the `targetmanager` table (the `mysqltable` struct
without the unused numeric `ID` column). -/
structure RawRecord where
  hostid : String
  FQDN : String
  IPv4 : String
  IPv6 : String
deriving DecidableEq

/-- `target.Target` as populated by the plugin: the stored addresses are the
raw `net.ParseIP` results. -/
structure Target where
  id : String
  FQDN : String
  PrimaryIPv4 : Option GoIP
  PrimaryIPv6 : Option GoIP
deriving DecidableEq

/-- The distinct failure exits of `Acquire`, one per `return nil, err` site. -/
inductive AcquireError where
  | typeMismatch
  | scanFailed
  | emptyHostID
  | invalidIPv4 (raw : String)
  | invalidIPv6 (raw : String)
  | insufficientCandidates (want got : Nat)
  | lockFailed (msg : String)
  | filterFailed
  | cantUnlock
  | quorumNotMet
deriving DecidableEq

instance {ε α : Type} [DecidableEq ε] [DecidableEq α] : DecidableEq (Except ε α) := by
  intro a b
  cases a <;> cases b
  case error.error e1 e2 =>
    exact if h : e1 = e2 then .isTrue (by rw [h]) else .isFalse (by simp [h])
  case ok.ok v1 v2 =>
    exact if h : v1 = v2 then .isTrue (by rw [h]) else .isFalse (by simp [h])
  all_goals exact .isFalse (by simp)

/-! ## Row validation and filtering (`Acquire` loop body, lines 121-162) -/

/-- Validation of the IPv4 column: `net.ParseIP` must succeed and `To4` must
be non-nil; the stored value is the `ParseIP` result. -/
def parseV4Field (s : String) : Except AcquireError (Option GoIP) :=
  if s = "" then .ok none
  else
    match parseIP s with
    | none => .error (.invalidIPv4 s)
    | some ip => if to4 ip = none then .error (.invalidIPv4 s) else .ok (some ip)

/-- Validation of the IPv6 column: `net.ParseIP` must succeed and `To16` must
be non-nil; the stored value is the `ParseIP` result. -/
def parseV6Field (s : String) : Except AcquireError (Option GoIP) :=
  if s = "" then .ok none
  else
    match parseIP s with
    | none => .error (.invalidIPv6 s)
    | some ip => if to16 ip = none then .error (.invalidIPv6 s) else .ok (some ip)

/-- Build the `target.Target` for a row (lines 132-151 of the source). -/
def mkTarget (r : RawRecord) : Except AcquireError Target :=
  match parseV4Field r.IPv4 with
  | .error e => .error e
  | .ok v4 =>
    match parseV6Field r.IPv6 with
    | .error e => .error e
    | .ok v6 => .ok ⟨r.hostid, r.FQDN, v4, v6⟩

/-- `strings.Split(fqdn, ".")[0]`: the characters before the first dot. -/
def firstComponent (s : String) : List Char := s.toList.takeWhile (fun c => c ≠ '.')

/-- `strings.HasPrefix(s, hp)` over the character lists of the strings. -/
def hasPfx (s : List Char) (hp : String) : Bool := hp.toList.isPrefixOf s

/-- The inclusion step (lines 152-162): with no host-prefix filter the target
is appended once; with a filter active and a non-empty FQDN it is appended
once per matching filter entry; otherwise it is dropped. -/
def filterTarget (pres : List String) (t : Target) : List Target :=
  if pres = [] then [t]
  else if t.FQDN ≠ "" then
    (pres.filter (fun hp => hasPfx (firstComponent t.FQDN) hp)).map (fun _ => t)
  else []

/-- Full handling of one scanned row (lines 125-162): the all-empty row is
skipped, an empty host id aborts, then validation and filtering run. -/
def processRecord (pres : List String) (r : RawRecord) : Except AcquireError (List Target) :=
  if r.hostid = "" ∧ r.FQDN = "" ∧ r.IPv4 = "" ∧ r.IPv6 = "" then .ok []
  else if r.hostid = "" then .error .emptyHostID
  else
    match mkTarget r with
    | .error e => .error e
    | .ok t => .ok (filterTarget pres t)

/-- The scan loop over all rows (lines 121-163).  A `none` row models a row
on which `table.Scan` fails. -/
def collectHosts (pres : List String) : List (Option RawRecord) → Except AcquireError (List Target)
  | [] => .ok []
  | none :: _ => .error .scanFailed
  | some r :: rest =>
    match processRecord pres r with
    | .error e => .error e
    | .ok ts =>
      match collectHosts pres rest with
      | .error e => .error e
      | .ok hs => .ok (ts ++ hs)

/-! ## Shuffling (lines 171-176)

`rand.Shuffle(n, swap)` runs Fisher-Yates: for `i` from `n-1` down to `1` it
swaps positions `i` and `j` where `j` is a random value in `[0, i]`.  The
random source is modelled as a function `rnd` giving the raw draw for each
index; the `% (i + 1)` realises the `Int31n(i + 1)` bound. -/

/-- The swap closure passed to `rand.Shuffle`:
`hosts[i], hosts[j] = hosts[j], hosts[i]`. -/
def swapL {α : Type} (l : List α) (i j : Nat) : List α :=
  match l[i]?, l[j]? with
  | some a, some b => (l.set i b).set j a
  | _, _ => l

/-- The Fisher-Yates loop of `rand.Shuffle`, from index `i` down to `1`. -/
def shuffleAux {α : Type} (rnd : Nat → Nat) : List α → Nat → List α
  | l, 0 => l
  | l, i + 1 => shuffleAux rnd (swapL l (i + 1) (rnd (i + 1) % (i + 2))) i

/-- `rand.Shuffle(len(hosts), swap)` as invoked by `Acquire`. -/
def shuffleGo {α : Type} (l : List α) (rnd : Nat → Nat) : List α :=
  shuffleAux rnd l (l.length - 1)

/-! ## The locker and the acquisition coordinator (lines 102-204) -/

/-- Modelled from the spec: `target.FilterTargets` from the repository's
`pkg/target` package (its source is not among the supplied files) maps the
identifiers reported by the locker back to the original `Target` entities of
the candidate list; any reported identifier not found among the candidates
makes the whole mapping fail. -/
def FilterTargets (ids : List String) (hosts : List Target) : Option (List Target) :=
  match ids with
  | [] => some []
  | i :: rest =>
    match hosts.find? (fun t => t.id = i), FilterTargets rest hosts with
    | some t, some ts => some (t :: ts)
    | _, _ => none

/-- One possible behaviour of the external locker during a single `Acquire`
call: what `TryLock` returns (identifier list and error, as the two Go return
values) and whether the `Unlock` call, if made, fails. -/
structure LockerBehavior where
  tryLockIDs : List String
  tryLockErr : Option String
  unlockFails : Bool
deriving DecidableEq

/-- The observable outcome of one `Acquire` call: the two Go return values
plus a trace of the locker calls that were made (arguments included). -/
structure AcquireResult where
  targets : Option (List Target)
  err : Option AcquireError
  tryLockCalls : List (List Target × Nat)
  unlockCalls : List (List Target)
deriving DecidableEq

/-- The candidate list handed to `TryLock`: shuffled when requested. -/
def lockCandidates (ap : AcquireParameters) (hosts0 : List Target) (rnd : Nat → Nat) :
    List Target :=
  if ap.Shuffle then shuffleGo hosts0 rnd else hosts0

/-- `MySQLTargetManager.Acquire`.  `parameters` is `none` when the dynamic
type assertion on the parameters object fails; `rows` are the scanned table
rows; `rnd` the random source; `lk` the locker's behaviour.  The length
comparison mirrors the `uint32(len(hosts))` conversion of the source. -/
def Acquire (parameters : Option AcquireParameters) (rows : List (Option RawRecord))
    (rnd : Nat → Nat) (lk : LockerBehavior) : AcquireResult :=
  match parameters with
  | none => ⟨none, some .typeMismatch, [], []⟩
  | some ap =>
    match collectHosts ap.HostPrefixes rows with
    | .error e => ⟨none, some e, [], []⟩
    | .ok hosts0 =>
      if hosts0.length % 4294967296 < ap.MinNumberDevices then
        ⟨none, some (.insufficientCandidates ap.MinNumberDevices hosts0.length), [], []⟩
      else
        match lk.tryLockErr with
        | some e =>
          ⟨none, some (.lockFailed e),
            [(lockCandidates ap hosts0 rnd, ap.MaxNumberDevices)], []⟩
        | none =>
          match FilterTargets lk.tryLockIDs (lockCandidates ap hosts0 rnd) with
          | none =>
            ⟨none, some .filterFailed,
              [(lockCandidates ap hosts0 rnd, ap.MaxNumberDevices)], []⟩
          | some locked =>
            if ap.MinNumberDevices ≤ locked.length then
              ⟨some locked, none,
                [(lockCandidates ap hosts0 rnd, ap.MaxNumberDevices)], []⟩
            else if 0 < locked.length then
              if lk.unlockFails then
                ⟨none, some .cantUnlock,
                  [(lockCandidates ap hosts0 rnd, ap.MaxNumberDevices)], [locked]⟩
              else
                ⟨none, some .quorumNotMet,
                  [(lockCandidates ap hosts0 rnd, ap.MaxNumberDevices)], [locked]⟩
            else
              ⟨none, some .quorumNotMet,
                [(lockCandidates ap hosts0 rnd, ap.MaxNumberDevices)], []⟩

/-- The IPv4-column check that makes the source reject the value: `ParseIP`
fails or `To4` is nil (mirrors lines 139-143). -/
def v4Reject (s : String) : Bool :=
  match parseIP s with
  | none => true
  | some ip => (to4 ip).isNone

/-- The IPv6-column check that makes the source reject the value: `ParseIP`
fails or `To16` is nil (mirrors lines 146-150). -/
def v6Reject (s : String) : Bool :=
  match parseIP s with
  | none => true
  | some ip => (to16 ip).isNone

/-! ## Concrete fixtures used to evaluate the model -/

/-- The target built from a row with host id `"a"` and no other data. -/
def targetA : Target := ⟨"a", "", none, none⟩

/-- The target built from a row with host id `"b"` and no other data. -/
def targetB : Target := ⟨"b", "", none, none⟩

/-- The target built from a row with FQDN `web01.example.com`. -/
def targetW : Target := ⟨"w1", "web01.example.com", none, none⟩

/-- Two well-formed rows with host ids `"a"` and `"b"`. -/
def rowsAB : List (Option RawRecord) := [some ⟨"a", "", "", ""⟩, some ⟨"b", "", "", ""⟩]

/-- A fixed random source. -/
def rnd0 : Nat → Nat := fun _ => 0

example : processRecord [] ⟨"h1", "", "999.999.999.999", ""⟩ =
    .error (.invalidIPv4 "999.999.999.999") := by decide

example : processRecord [] ⟨"h1", "", "1.2.3.4", ""⟩ =
    .ok [⟨"h1", "", some (v4mapped ++ [1, 2, 3, 4]), none⟩] := by decide

example : parseIP "2001:db8::1" =
    some [0x20, 0x01, 0x0d, 0xb8, 0, 0, 0, 0, 0, 0, 0, 0, 0, 0, 0, 1] := by decide

example : parseIP "::ffff:1.2.3.4" = some (v4mapped ++ [1, 2, 3, 4]) := by decide

example : parseIP "zzz" = none := by decide

example : collectHosts ["web"]
    [some ⟨"w1", "web01.example.com", "", ""⟩, some ⟨"d1", "db01.example.com", "", ""⟩] =
    .ok [targetW] := by decide

/-! ## Helper lemmas -/

theorem count_set_eq {α : Type} [DecidableEq α] :
    ∀ (l : List α) (i : Nat) (a v x : α), l[i]? = some a →
      (l.set i v).count x + (if a = x then 1 else 0) =
        l.count x + (if v = x then 1 else 0) := by
  intro l
  induction l with
  | nil => intro i a v x h; simp at h
  | cons hd tl ih =>
    intro i a v x h
    cases i with
    | zero =>
      simp only [List.getElem?_cons_zero, Option.some.injEq] at h
      subst h
      simp only [List.set, List.count_cons, beq_iff_eq]
      omega
    | succ n =>
      simp only [List.getElem?_cons_succ] at h
      have ih' := ih n a v x h
      simp only [List.set, List.count_cons, beq_iff_eq]
      omega

theorem swapL_perm {α : Type} [DecidableEq α] (l : List α) (i j : Nat) :
    List.Perm (swapL l i j) l := by
  unfold swapL
  cases hi : l[i]? with
  | none => exact List.Perm.refl l
  | some a =>
    cases hj : l[j]? with
    | none => exact List.Perm.refl l
    | some b =>
      show List.Perm ((l.set i b).set j a) l
      rw [List.perm_iff_count]
      intro x
      have hj' : (l.set i b)[j]? = some b := by
        by_cases hij : i = j
        · subst hij
          have hlen : i < l.length := (List.getElem?_eq_some.mp hi).1
          exact List.getElem?_set_eq_of_lt b hlen
        · rw [List.getElem?_set_ne hij]; exact hj
      have c1 := count_set_eq l i a b x hi
      have c2 := count_set_eq (l.set i b) j b a x hj'
      omega

theorem shuffleAux_perm {α : Type} [DecidableEq α] (rnd : Nat → Nat) :
    ∀ (i : Nat) (l : List α), List.Perm (shuffleAux rnd l i) l := by
  intro i
  induction i with
  | zero => intro l; exact List.Perm.refl l
  | succ n ih =>
    intro l
    exact (ih (swapL l (n + 1) (rnd (n + 1) % (n + 2)))).trans (swapL_perm l _ _)

theorem shuffleGo_perm {α : Type} [DecidableEq α] (l : List α) (rnd : Nat → Nat) :
    List.Perm (shuffleGo l rnd) l :=
  shuffleAux_perm rnd (l.length - 1) l

theorem mem_lockCandidates (ap : AcquireParameters) (hosts0 : List Target) (rnd : Nat → Nat)
    (t : Target) (h : t ∈ lockCandidates ap hosts0 rnd) : t ∈ hosts0 := by
  unfold lockCandidates at h
  by_cases hs : ap.Shuffle
  · rw [if_pos hs] at h
    exact (shuffleGo_perm hosts0 rnd).mem_iff.mp h
  · rwa [if_neg hs] at h

theorem FilterTargets_length :
    ∀ (ids : List String) (hosts : List Target) (l : List Target),
      FilterTargets ids hosts = some l → l.length = ids.length := by
  intro ids
  induction ids with
  | nil => intro hosts l h; simp only [FilterTargets] at h; cases h; rfl
  | cons i rest ih =>
    intro hosts l h
    simp only [FilterTargets] at h
    cases hfind : hosts.find? (fun t => t.id = i) with
    | none => rw [hfind] at h; exact absurd h (by simp)
    | some t =>
      cases hrec : FilterTargets rest hosts with
      | none => rw [hfind, hrec] at h; exact absurd h (by simp)
      | some ts =>
        rw [hfind, hrec] at h
        cases h
        simp [ih hosts ts hrec]

theorem FilterTargets_mem :
    ∀ (ids : List String) (hosts : List Target) (l : List Target),
      FilterTargets ids hosts = some l → ∀ t ∈ l, t ∈ hosts := by
  intro ids
  induction ids with
  | nil => intro hosts l h; simp only [FilterTargets] at h; cases h; intro t ht; simp at ht
  | cons i rest ih =>
    intro hosts l h
    simp only [FilterTargets] at h
    cases hfind : hosts.find? (fun t => t.id = i) with
    | none => rw [hfind] at h; exact absurd h (by simp)
    | some t0 =>
      cases hrec : FilterTargets rest hosts with
      | none => rw [hfind, hrec] at h; exact absurd h (by simp)
      | some ts =>
        rw [hfind, hrec] at h
        cases h
        intro t ht
        rcases List.mem_cons.mp ht with h1 | h2
        · subst h1; exact List.mem_of_find?_eq_some hfind
        · exact ih hosts ts hrec t h2

theorem collectHosts_append (pres : List String) :
    ∀ (pre rows : List (Option RawRecord)),
      collectHosts pres (pre ++ rows) =
        match collectHosts pres pre with
        | .error e => .error e
        | .ok hs =>
          match collectHosts pres rows with
          | .error e => .error e
          | .ok hs2 => .ok (hs ++ hs2) := by
  intro pre
  induction pre with
  | nil =>
    intro rows
    simp only [List.nil_append, collectHosts]
    cases collectHosts pres rows <;> simp
  | cons x pre' ih =>
    intro rows
    cases x with
    | none => simp [collectHosts]
    | some r =>
      simp only [List.cons_append, collectHosts, List.append_eq]
      cases hp : processRecord pres r with
      | error e => simp
      | ok ts =>
        rw [ih rows]
        cases collectHosts pres pre' with
        | error e => simp
        | ok hs =>
          cases collectHosts pres rows <;> simp

theorem collectHosts_record_error (pres : List String) (pre rest : List (Option RawRecord))
    (r : RawRecord) (hs : List Target) (e : AcquireError)
    (hok : collectHosts pres pre = .ok hs)
    (hr : processRecord pres r = .error e) :
    collectHosts pres (pre ++ some r :: rest) = .error e := by
  rw [collectHosts_append pres pre (some r :: rest), hok]
  simp only [collectHosts, hr]

theorem mkTarget_FQDN (r : RawRecord) (t : Target) (hmk : mkTarget r = .ok t) :
    t.FQDN = r.FQDN := by
  unfold mkTarget at hmk
  cases h4 : parseV4Field r.IPv4 with
  | error e => rw [h4] at hmk; cases hmk
  | ok v4 =>
    cases h6 : parseV6Field r.IPv6 with
    | error e => rw [h4, h6] at hmk; cases hmk
    | ok v6 => rw [h4, h6] at hmk; cases hmk; rfl

/-! ## Claims -/

/-- C3: for every candidate set whose size is strictly below `minCount`, the
acquire operation fails with the insufficient-candidates error and the
locker's try-lock is never invoked (the try-lock call trace is empty). -/
theorem C3_insufficient_candidates_no_trylock
    (ap : AcquireParameters) (rows : List (Option RawRecord)) (rnd : Nat → Nat)
    (lk : LockerBehavior) (hosts0 : List Target)
    (hc : collectHosts ap.HostPrefixes rows = .ok hosts0)
    (hlt : hosts0.length < ap.MinNumberDevices)
    (hw : ap.MinNumberDevices < 4294967296) :
    (Acquire (some ap) rows rnd lk).err =
        some (.insufficientCandidates ap.MinNumberDevices hosts0.length) ∧
      (Acquire (some ap) rows rnd lk).tryLockCalls = [] := by
  have hmod : hosts0.length % 4294967296 = hosts0.length :=
    Nat.mod_eq_of_lt (Nat.lt_trans hlt hw)
  simp only [Acquire, hc]
  rw [hmod, if_pos hlt]
  exact ⟨rfl, rfl⟩

theorem C3_witness :
    (Acquire (some ⟨3, 3, [], false⟩) rowsAB rnd0 ⟨[], none, false⟩).err =
        some (.insufficientCandidates 3 2) ∧
      (Acquire (some ⟨3, 3, [], false⟩) rowsAB rnd0 ⟨[], none, false⟩).tryLockCalls = [] :=
  C3_insufficient_candidates_no_trylock ⟨3, 3, [], false⟩ rowsAB rnd0 ⟨[], none, false⟩
    [targetA, targetB] (by decide) (by decide) (by decide)

/-- C7: with an empty host-prefix list every target is included; with a
non-empty list a target is included exactly when its FQDN is non-empty and
the first dot-delimited label of the FQDN starts with at least one of the
listed prefixes; a target with an empty FQDN is excluded whenever the filter
is active. -/
theorem C7_prefix_filter_membership (pres : List String) (t : Target) :
    t ∈ filterTarget pres t ↔
      (pres = [] ∨
        (t.FQDN ≠ "" ∧ ∃ hp ∈ pres, hasPfx (firstComponent t.FQDN) hp = true)) := by
  unfold filterTarget
  by_cases h0 : pres = []
  · rw [if_pos h0]
    simp [h0]
  · rw [if_neg h0]
    by_cases hF : t.FQDN ≠ ""
    · rw [if_pos hF]
      simp only [List.mem_map, List.mem_filter]
      constructor
      · rintro ⟨hp, ⟨hmem, hpfx⟩, -⟩
        exact Or.inr ⟨hF, hp, hmem, hpfx⟩
      · rintro (h | ⟨-, hp, hmem, hpfx⟩)
        · exact absurd h h0
        · exact ⟨hp, ⟨hmem, hpfx⟩, trivial⟩
    · rw [if_neg hF]
      push_neg at hF
      simp [h0, hF]

theorem C7_witness :
    targetW ∈ filterTarget ["web"] targetW :=
  (C7_prefix_filter_membership ["web"] targetW).mpr (by decide)

/-- C9: with an active host-prefix filter, a record whose first FQDN label
matches `k` of the (distinct) listed prefixes contributes exactly `k` entries
to the candidate list, all of them the very same target. -/
theorem C9_entry_per_matching_filter (pres : List String) (r : RawRecord) (t : Target)
    (hne : pres ≠ []) (hnd : pres.Nodup) (hid : r.hostid ≠ "") (hF : r.FQDN ≠ "")
    (hmk : mkTarget r = .ok t) :
    processRecord pres r =
        .ok ((pres.filter (fun hp => hasPfx (firstComponent t.FQDN) hp)).map
          (fun _ => t)) ∧
      ((pres.filter (fun hp => hasPfx (firstComponent t.FQDN) hp)).map
          (fun _ : String => t)).length =
        (pres.filter (fun hp => hasPfx (firstComponent t.FQDN) hp)).length := by
  refine ⟨?_, List.length_map _ _⟩
  have htF : t.FQDN = r.FQDN := mkTarget_FQDN r t hmk
  unfold processRecord
  rw [if_neg (fun hall => hid hall.1), if_neg hid, hmk]
  show Except.ok (filterTarget pres t) = _
  unfold filterTarget
  rw [if_neg hne, if_pos (show t.FQDN ≠ "" from htF ▸ hF)]

theorem C9_witness :
    processRecord ["we", "web"] ⟨"w1", "web01.example.com", "", ""⟩ =
      .ok ((["we", "web"].filter (fun hp => hasPfx (firstComponent targetW.FQDN) hp)).map
        (fun _ => targetW)) :=
  (C9_entry_per_matching_filter ["we", "web"] ⟨"w1", "web01.example.com", "", ""⟩ targetW
    (by decide) (by decide) (by decide) (by decide) (by decide)).1

/-- C8: the shuffle pass is a permutation, so the multiset of targets is
preserved: no element is added, dropped or duplicated. -/
theorem C8_shuffle_preserves_multiset (l : List Target) (rnd : Nat → Nat) :
    List.Perm (shuffleGo l rnd) l :=
  shuffleGo_perm l rnd

theorem C8_witness :
    List.Perm (shuffleGo [targetA, targetB, targetW] rnd0) [targetA, targetB, targetW] :=
  C8_shuffle_preserves_multiset [targetA, targetB, targetW] rnd0

theorem acquire_err_or_targets (p : Option AcquireParameters) (rows : List (Option RawRecord))
    (rnd : Nat → Nat) (lk : LockerBehavior) :
    (Acquire p rows rnd lk).targets = none ∨ (Acquire p rows rnd lk).err = none := by
  unfold Acquire
  split
  · exact Or.inl rfl
  · split
    · exact Or.inl rfl
    · split
      · exact Or.inl rfl
      · split
        · exact Or.inl rfl
        · split
          · exact Or.inl rfl
          · split
            · exact Or.inr rfl
            · split
              · split
                · exact Or.inl rfl
                · exact Or.inl rfl
              · exact Or.inl rfl

/-- C10: whenever the acquire operation returns an error — whatever the
failure mode — the returned target list is nil; a caller never receives both
an incomplete target list and an error. -/
theorem C10_error_returns_nil_targets (p : Option AcquireParameters)
    (rows : List (Option RawRecord)) (rnd : Nat → Nat) (lk : LockerBehavior)
    (e : AcquireError) (h : (Acquire p rows rnd lk).err = some e) :
    (Acquire p rows rnd lk).targets = none := by
  rcases acquire_err_or_targets p rows rnd lk with h1 | h1
  · exact h1
  · rw [h1] at h; cases h

theorem C10_witness :
    (Acquire none rowsAB rnd0 ⟨[], none, false⟩).targets = none :=
  C10_error_returns_nil_targets none rowsAB rnd0 ⟨[], none, false⟩ .typeMismatch rfl

/-- C6: a row with all four fields empty is skipped — the load behaves
exactly as if the row were absent, so the row is not counted and causes no
error; a row with an empty host id but some other non-empty field aborts the
whole load with the empty-host-id error. -/
theorem C6_empty_row_skip_empty_id_abort (pres : List String)
    (pre rest : List (Option RawRecord)) (r : RawRecord) :
    (r.hostid = "" ∧ r.FQDN = "" ∧ r.IPv4 = "" ∧ r.IPv6 = "" →
      collectHosts pres (pre ++ some r :: rest) = collectHosts pres (pre ++ rest)) ∧
    (r.hostid = "" → ¬(r.FQDN = "" ∧ r.IPv4 = "" ∧ r.IPv6 = "") →
      ∀ hs, collectHosts pres pre = .ok hs →
        collectHosts pres (pre ++ some r :: rest) = .error .emptyHostID) := by
  constructor
  · intro hall
    have hr : processRecord pres r = .ok [] := by
      unfold processRecord
      rw [if_pos hall]
    have hskip : collectHosts pres (some r :: rest) = collectHosts pres rest := by
      simp only [collectHosts, hr]
      cases collectHosts pres rest <;> simp
    rw [collectHosts_append pres pre (some r :: rest),
      collectHosts_append pres pre rest, hskip]
  · intro hid hne hs hok
    have hr : processRecord pres r = .error .emptyHostID := by
      unfold processRecord
      rw [if_neg (fun hall => hne ⟨hall.2.1, hall.2.2⟩), if_pos hid]
    exact collectHosts_record_error pres pre rest r hs _ hok hr

theorem C6_witness :
    collectHosts [] [some ⟨"", "", "", ""⟩] = collectHosts [] [] ∧
      collectHosts [] [some ⟨"", "x", "", ""⟩] = .error .emptyHostID := by
  constructor
  · exact (C6_empty_row_skip_empty_id_abort [] [] [] ⟨"", "", "", ""⟩).1 (by decide)
  · exact (C6_empty_row_skip_empty_id_abort [] [] [] ⟨"", "x", "", ""⟩).2 rfl (by decide) []
      rfl

/-- C5 counterexample: the raw value `"1.2.3.4"` in the IPv6 column is not an
IPv6-family address (Go parses it down the dotted-quad branch and `To4` on
the result is non-nil), yet the load accepts the record instead of failing
with an invalid-address error, because the source's IPv6 check is
`To16() == nil`, which succeeds for addresses of either family. -/
theorem C5_counterexample :
    collectHosts [] [some ⟨"h1", "", "", "1.2.3.4"⟩] =
        .ok [⟨"h1", "", none, some (v4mapped ++ [1, 2, 3, 4])⟩] ∧
      firstSep "1.2.3.4".toList = some '.' ∧
      (to4 (v4mapped ++ [1, 2, 3, 4])).isSome = true := by decide

/-- If the raw value fails the source's IPv4 check, the IPv4-column
validation returns the invalid-address error naming the value. -/
theorem parseV4Field_reject (s : String) (hne : s ≠ "") (hrej : v4Reject s = true) :
    parseV4Field s = .error (.invalidIPv4 s) := by
  unfold parseV4Field
  rw [if_neg hne]
  cases hp : parseIP s with
  | none => rfl
  | some ip =>
    have hrej2 : (to4 ip).isNone = true := by
      unfold v4Reject at hrej
      rw [hp] at hrej
      exact hrej
    show (if to4 ip = none then Except.error (AcquireError.invalidIPv4 s)
        else Except.ok (some ip)) =
      Except.error (AcquireError.invalidIPv4 s)
    rw [if_pos (Option.isNone_iff_eq_none.mp hrej2)]

/-- If the raw value passes the source's IPv4 check (or is empty), the
IPv4-column validation succeeds. -/
theorem parseV4Field_ok (s : String) (h : s = "" ∨ v4Reject s = false) :
    ∃ v4, parseV4Field s = .ok v4 := by
  by_cases hemp : s = ""
  · exact ⟨none, by unfold parseV4Field; rw [if_pos hemp]⟩
  · rcases h with he | hfalse
    · exact absurd he hemp
    · cases hp : parseIP s with
      | none =>
        exfalso
        unfold v4Reject at hfalse
        rw [hp] at hfalse
        simp at hfalse
      | some ip =>
        have hf2 : (to4 ip).isNone = false := by
          unfold v4Reject at hfalse
          rw [hp] at hfalse
          exact hfalse
        refine ⟨some ip, ?_⟩
        unfold parseV4Field
        rw [if_neg hemp, hp]
        show (if to4 ip = none then Except.error (AcquireError.invalidIPv4 s)
            else Except.ok (some ip)) =
          Except.ok (some ip)
        rw [if_neg (fun hn => by rw [hn] at hf2; cases hf2)]

/-- If the raw value fails the source's IPv6 check, the IPv6-column
validation returns the invalid-address error naming the value. -/
theorem parseV6Field_reject (s : String) (hne : s ≠ "") (hrej : v6Reject s = true) :
    parseV6Field s = .error (.invalidIPv6 s) := by
  unfold parseV6Field
  rw [if_neg hne]
  cases hp : parseIP s with
  | none => rfl
  | some ip =>
    have hrej2 : (to16 ip).isNone = true := by
      unfold v6Reject at hrej
      rw [hp] at hrej
      exact hrej
    show (if to16 ip = none then Except.error (AcquireError.invalidIPv6 s)
        else Except.ok (some ip)) =
      Except.error (AcquireError.invalidIPv6 s)
    rw [if_pos (Option.isNone_iff_eq_none.mp hrej2)]

theorem mkTarget_v4_error (r : RawRecord) (e : AcquireError)
    (h4 : parseV4Field r.IPv4 = .error e) : mkTarget r = .error e := by
  unfold mkTarget
  rw [h4]

theorem mkTarget_v6_error (r : RawRecord) (v4 : Option GoIP) (e : AcquireError)
    (h4 : parseV4Field r.IPv4 = .ok v4) (h6 : parseV6Field r.IPv6 = .error e) :
    mkTarget r = .error e := by
  unfold mkTarget
  rw [h4]
  show (match parseV6Field r.IPv6 with
    | Except.error e => Except.error e
    | Except.ok v6 => Except.ok (Target.mk r.hostid r.FQDN v4 v6)) = Except.error e
  rw [h6]

theorem processRecord_error (pres : List String) (r : RawRecord) (e : AcquireError)
    (hid : r.hostid ≠ "") (hmk : mkTarget r = .error e) :
    processRecord pres r = .error e := by
  unfold processRecord
  rw [if_neg (fun hall => hid hall.1), if_neg hid, hmk]

/-- C5 (amended): a non-empty IPv4 column must parse as an IPv4 address
(`ParseIP` plus `To4`), and a non-empty IPv6 column must parse as an IP
address of either family (`ParseIP` plus `To16`, which accepts IPv4 values
too); otherwise the whole catalog load fails with an invalid-address error
naming the offending raw value, rather than skipping the record. -/
theorem C5_invalid_address_aborts_load (pres : List String)
    (pre rest : List (Option RawRecord)) (r : RawRecord) (hs : List Target)
    (hok : collectHosts pres pre = .ok hs) (hid : r.hostid ≠ "") :
    (r.IPv4 ≠ "" → v4Reject r.IPv4 = true →
      collectHosts pres (pre ++ some r :: rest) = .error (.invalidIPv4 r.IPv4)) ∧
    (r.IPv4 = "" ∨ v4Reject r.IPv4 = false → r.IPv6 ≠ "" → v6Reject r.IPv6 = true →
      collectHosts pres (pre ++ some r :: rest) = .error (.invalidIPv6 r.IPv6)) := by
  constructor
  · intro hne4 hrej
    exact collectHosts_record_error pres pre rest r hs _ hok
      (processRecord_error pres r _ hid
        (mkTarget_v4_error r _ (parseV4Field_reject r.IPv4 hne4 hrej)))
  · intro hpass hne6 hrej
    rcases parseV4Field_ok r.IPv4 hpass with ⟨v4, h4⟩
    exact collectHosts_record_error pres pre rest r hs _ hok
      (processRecord_error pres r _ hid
        (mkTarget_v6_error r v4 _ h4 (parseV6Field_reject r.IPv6 hne6 hrej)))

theorem C5_witness :
    collectHosts [] [some ⟨"h1", "", "999.999.999.999", ""⟩] =
      .error (.invalidIPv4 "999.999.999.999") :=
  (C5_invalid_address_aborts_load [] [] [] ⟨"h1", "", "999.999.999.999", ""⟩ [] rfl
    (by decide)).1 (by decide) (by decide)

/-- C1 counterexample: with candidates `a, b`, quorum 2 and a locker that
grants only `a` and whose unlock call fails, the call returns the unlock
error alone — the quorum error is replaced, not reported alongside. -/
theorem C1_counterexample :
    (Acquire (some ⟨2, 3, [], false⟩) rowsAB rnd0 ⟨["a"], none, true⟩).err =
        some .cantUnlock ∧
      (Acquire (some ⟨2, 3, [], false⟩) rowsAB rnd0 ⟨["a"], none, true⟩).err ≠
        some .quorumNotMet ∧
      (Acquire (some ⟨2, 3, [], false⟩) rowsAB rnd0 ⟨["a"], none, true⟩).unlockCalls =
        [[targetA]] := by decide

/-- C1 (amended): when the reconciliation finds `0 < locked < minCount`, the
coordinator unlocks every granted target and fails; on a successful unlock
the failure is the quorum error, but when the unlock call itself fails the
returned error is the unlock error, which replaces the quorum error. -/
theorem C1_unwind_then_fail (ap : AcquireParameters) (rows : List (Option RawRecord))
    (rnd : Nat → Nat) (lk : LockerBehavior) (hosts0 locked : List Target)
    (hc : collectHosts ap.HostPrefixes rows = .ok hosts0)
    (hmin : ¬hosts0.length % 4294967296 < ap.MinNumberDevices)
    (hte : lk.tryLockErr = none)
    (hf : FilterTargets lk.tryLockIDs (lockCandidates ap hosts0 rnd) = some locked)
    (h0 : 0 < locked.length) (hlt : locked.length < ap.MinNumberDevices) :
    (Acquire (some ap) rows rnd lk).unlockCalls = [locked] ∧
      (Acquire (some ap) rows rnd lk).err =
        some (if lk.unlockFails then .cantUnlock else .quorumNotMet) ∧
      (Acquire (some ap) rows rnd lk).targets = none := by
  simp only [Acquire, hc, hte, hf]
  rw [if_neg hmin, if_neg (show ¬ap.MinNumberDevices ≤ locked.length by omega), if_pos h0]
  cases hU : lk.unlockFails <;> simp

theorem C1_witness :
    (Acquire (some ⟨2, 3, [], false⟩) rowsAB rnd0 ⟨["a"], none, false⟩).unlockCalls =
        [[targetA]] ∧
      (Acquire (some ⟨2, 3, [], false⟩) rowsAB rnd0 ⟨["a"], none, false⟩).err =
        some .quorumNotMet :=
  have h := C1_unwind_then_fail ⟨2, 3, [], false⟩ rowsAB rnd0 ⟨["a"], none, false⟩
    [targetA, targetB] [targetA] (by decide) (by decide) rfl (by decide) (by decide)
    (by decide)
  ⟨h.1, h.2.1⟩

/-- C4 counterexample: the locker reports a try-lock error together with a
non-empty locked identifier list mapping to one target, which is below the
quorum of 2; the coordinator nevertheless returns the lock failure with no
unlock call — the partly locked subset is discarded, not reconciled. -/
theorem C4_counterexample :
    (Acquire (some ⟨2, 3, [], false⟩) rowsAB rnd0
          ⟨["a"], some "i/o timeout", false⟩).err =
        some (.lockFailed "i/o timeout") ∧
      (Acquire (some ⟨2, 3, [], false⟩) rowsAB rnd0
          ⟨["a"], some "i/o timeout", false⟩).unlockCalls = [] ∧
      FilterTargets ["a"] [targetA, targetB] = some [targetA] ∧
      0 < [targetA].length ∧ [targetA].length < 2 := by decide

/-- C4 (amended): whenever the try-lock call returns a non-nil error, the
coordinator immediately fails with the lock error; any identifiers the
locker reported alongside the error are discarded — no reconciliation and no
unlock call happens. -/
theorem C4_trylock_error_discards (ap : AcquireParameters)
    (rows : List (Option RawRecord)) (rnd : Nat → Nat) (lk : LockerBehavior)
    (hosts0 : List Target) (m : String)
    (hc : collectHosts ap.HostPrefixes rows = .ok hosts0)
    (hmin : ¬hosts0.length % 4294967296 < ap.MinNumberDevices)
    (hte : lk.tryLockErr = some m) :
    (Acquire (some ap) rows rnd lk).err = some (.lockFailed m) ∧
      (Acquire (some ap) rows rnd lk).unlockCalls = [] ∧
      (Acquire (some ap) rows rnd lk).targets = none := by
  simp only [Acquire, hc, hte]
  rw [if_neg hmin]
  exact ⟨rfl, rfl, rfl⟩

theorem C4_witness :
    (Acquire (some ⟨2, 3, [], false⟩) rowsAB rnd0
        ⟨["a", "b"], some "deadline exceeded", false⟩).err =
      some (.lockFailed "deadline exceeded") :=
  (C4_trylock_error_discards ⟨2, 3, [], false⟩ rowsAB rnd0
    ⟨["a", "b"], some "deadline exceeded", false⟩ [targetA, targetB] "deadline exceeded"
    (by decide) (by decide) rfl).1

/-- C2 counterexample: with `minCount = maxCount = 1` and a locker that
grants both candidates, the call succeeds and returns two targets — more
than `maxCount`; the source never checks the upper bound. -/
theorem C2_counterexample :
    (Acquire (some ⟨1, 1, [], false⟩) rowsAB rnd0 ⟨["a", "b"], none, false⟩).targets =
        some [targetA, targetB] ∧
      (Acquire (some ⟨1, 1, [], false⟩) rowsAB rnd0 ⟨["a", "b"], none, false⟩).err =
        none ∧
      ¬([targetA, targetB].length ≤ 1) := by decide

/-- C2 (amended): every successful acquisition returns at least `minCount`
targets, and each returned target is one of the collected candidates; the
upper bound `len(result) <= maxCount` additionally holds whenever the locker
honours its contract and reports at most `maxCount` locked identifiers (the
source itself never checks the upper bound). -/
theorem C2_success_bounds (ap : AcquireParameters) (rows : List (Option RawRecord))
    (rnd : Nat → Nat) (lk : LockerBehavior) (hosts0 res : List Target)
    (hc : collectHosts ap.HostPrefixes rows = .ok hosts0)
    (hres : (Acquire (some ap) rows rnd lk).targets = some res) :
    ap.MinNumberDevices ≤ res.length ∧ (∀ t ∈ res, t ∈ hosts0) ∧
      (lk.tryLockIDs.length ≤ ap.MaxNumberDevices →
        res.length ≤ ap.MaxNumberDevices) := by
  simp only [Acquire, hc] at hres
  split at hres
  · simp at hres
  · split at hres
    · simp at hres
    · split at hres
      · simp at hres
      · rename_i hte hf
        split at hres
        · rename_i hge
          simp only [Option.some.injEq] at hres
          subst hres
          refine ⟨hge, ?_, ?_⟩
          · intro t ht
            exact mem_lockCandidates ap hosts0 rnd t
              (FilterTargets_mem lk.tryLockIDs _ _ hf t ht)
          · intro hconf
            rw [FilterTargets_length lk.tryLockIDs _ _ hf]
            exact hconf
        · split at hres
          · split at hres
            · simp at hres
            · simp at hres
          · simp at hres

theorem C2_witness :
    (1 : Nat) ≤ [targetA].length ∧ targetA ∈ [targetA, targetB] ∧
      [targetA].length ≤ 2 :=
  have h := C2_success_bounds ⟨1, 2, [], false⟩ rowsAB rnd0 ⟨["a"], none, false⟩
    [targetA, targetB] [targetA] (by decide) (by decide)
  ⟨h.1, h.2.1 targetA (by decide), h.2.2 (by decide)⟩
